import Mathlib

/-!
Verification of the academic progression engine of the Changex LMS:
the enrollment admission-control workflow (`app/utils/enrollment.py`),
the final-grade computation (`app/services/grading.py`) and the
at-risk predictor fallback (`app/services/predictive.py`).

Database rows are embedded as Lean structures, the database itself as a
`State` record of row lists (list order models the unspecified return
order of an unordered SQL query), SQL float columns as `ℚ`, and nullable
columns as `Option`.
-/

/-- Row of the `courses` table: primary key and the `course_prerequisites`
association (the list of prerequisite course ids). -/
structure Course where
  id : Nat
  prerequisites : List Nat
deriving DecidableEq

/-- Row of the `course_offerings` table: primary key, `course_id` foreign key
and `capacity`. -/
structure CourseOffering where
  id : Nat
  courseId : Nat
  capacity : Nat
deriving DecidableEq

/-- Row of the `enrollments` table (`grade` and `letter_grade` are nullable). -/
structure Enrollment where
  id : Nat
  userId : Nat
  offeringId : Nat
  status : String
  grade : Option ℚ
  letterGrade : Option String
deriving DecidableEq

/-- Row of the `waitlist` table (the model declares a unique constraint on
`(course_offering_id, user_id)` named `unique_waitlist`). -/
structure Waitlist where
  userId : Nat
  offeringId : Nat
deriving DecidableEq

/-- Row of the `assignment_groups` table. -/
structure AssignmentGroup where
  id : Nat
  offeringId : Nat
  weight : ℚ
  dropLowest : Nat
deriving DecidableEq

/-- Row of the `assignments` table (`group_id` is nullable). -/
structure Assignment where
  id : Nat
  offeringId : Nat
  groupId : Option Nat
  pointsPossible : ℚ
deriving DecidableEq

/-- Row of the `submissions` table (`grade` is nullable; ungraded rows keep
`none`). -/
structure Submission where
  assignmentId : Nat
  userId : Nat
  grade : Option ℚ
deriving DecidableEq

/-- The persistent store: one list per table, plus the autoincrement counter
for enrollment primary keys. -/
structure State where
  courses : List Course
  offerings : List CourseOffering
  enrollments : List Enrollment
  waitlists : List Waitlist
  groups : List AssignmentGroup
  assignments : List Assignment
  submissions : List Submission
  nextEnrollmentId : Nat
deriving DecidableEq

/-- Primary-key lookup `db.session.get(CourseOffering, offering_id)`. -/
def findOffering (s : State) (oid : Nat) : Option CourseOffering :=
  s.offerings.find? (fun o => o.id == oid)

/-- Primary-key lookup behind the `offering.course` relationship. -/
def findCourse (s : State) (cid : Nat) : Option Course :=
  s.courses.find? (fun c => c.id == cid)

/-- Primary-key lookup behind the `submission.assignment` relationship. -/
def findAssignment (s : State) (aid : Nat) : Option Assignment :=
  s.assignments.find? (fun a => a.id == aid)

/-- Count query `Enrollment.query.filter_by(course_offering_id=oid,
status equal to enrolled).count()`. -/
def enrolledCount (enrollments : List Enrollment) (oid : Nat) : Nat :=
  (enrollments.filter (fun e => e.offeringId == oid && e.status == "enrolled")).length

/-- SQL filter `Enrollment.grade >= 60.0` (a NULL grade never passes). -/
def hasPassingGrade (e : Enrollment) : Bool :=
  match e.grade with
  | some g => decide ((60 : ℚ) ≤ g)
  | none => false

/-- Completed-courses query of `enroll_student`: ids of courses in which the
user holds a completed enrollment with grade at least 60, joined through
`CourseOffering` and `Course` (inner joins, so rows whose offering or course
is missing contribute nothing). -/
def completedCourseIds (s : State) (uid : Nat) : List Nat :=
  (s.enrollments.filter
      (fun e => e.userId == uid && e.status == "completed" && hasPassingGrade e)).filterMap
    (fun e => (findOffering s e.offeringId).bind (fun off => (findCourse s off.courseId).map Course.id))

/-- Outcomes of `enroll_student`, one per returned dict of the source. -/
inductive EnrollOutcome where
  /-- the offering id matches no row: the error dict with code 404 -/
  | notFound : EnrollOutcome
  /-- an Enrollment row already exists: the Already-enrolled error dict with code 400 -/
  | alreadyEnrolled : EnrollOutcome
  /-- the offering is full: the message dict with waitlist True -/
  | waitlisted : EnrollOutcome
  /-- a prerequisite is unmet: the Prerequisites-not-met error dict with code 400 -/
  | prereqNotMet : EnrollOutcome
  /-- success: the dict carrying the new enrollment id -/
  | enrolled (enrollmentId : Nat) : EnrollOutcome
deriving DecidableEq

/-- Embedding of `enroll_student(user_id, offering_id)` from
`app/utils/enrollment.py`. Notification and realtime side effects are
fire-and-forget and carry no store state, so they are elided. A missing
course row on the enroll path would raise before any write (the foreign key
makes it unreachable against a consistent store); it is modelled as an error
outcome with the state unchanged. -/
def enroll_student (s : State) (uid oid : Nat) : EnrollOutcome × State :=
  match findOffering s oid with
  | none => (.notFound, s)
  | some offering =>
    if s.enrollments.any (fun e => e.userId == uid && e.offeringId == oid) then
      (.alreadyEnrolled, s)
    else if offering.capacity ≤ enrolledCount s.enrollments oid then
      (.waitlisted, { s with waitlists := s.waitlists ++ [⟨uid, oid⟩] })
    else
      match findCourse s offering.courseId with
      | none => (.notFound, s)
      | some course =>
        if !course.prerequisites.isEmpty &&
            !(course.prerequisites.all (fun p => (completedCourseIds s uid).contains p)) then
          (.prereqNotMet, s)
        else
          (.enrolled s.nextEnrollmentId,
           { s with
              enrollments :=
                s.enrollments ++ [⟨s.nextEnrollmentId, uid, oid, "enrolled", none, none⟩],
              nextEnrollmentId := s.nextEnrollmentId + 1 })

/-- Number of waitlist rows stored for a given user and offering. -/
def waitlistCount (waitlists : List Waitlist) (uid oid : Nat) : Nat :=
  (waitlists.filter (fun w => w.userId == uid && w.offeringId == oid)).length

/-- Capacity invariant of the spec: every offering has at most `capacity`
enrollments in status `enrolled`. -/
def capacityInvariant (s : State) : Prop :=
  ∀ off ∈ s.offerings, enrolledCount s.enrollments off.id ≤ off.capacity

instance (s : State) : Decidable (capacityInvariant s) :=
  inferInstanceAs (Decidable (∀ off ∈ s.offerings, _ ≤ _))

/-- Sort key of the drop-lowest sort: `x[0]/x[1] if x[1]>0 else 0`. -/
def ratioKey (g : ℚ × ℚ) : ℚ :=
  if 0 < g.2 then g.1 / g.2 else 0

/-- Comparison relation of the drop-lowest sort. The Python `list.sort` is a
stable ascending sort by key, which `List.insertionSort` with this relation
reproduces exactly (stable sorts by a fixed key agree on all inputs). -/
def ratioLe (a b : ℚ × ℚ) : Prop :=
  ratioKey a ≤ ratioKey b

instance : DecidableRel ratioLe :=
  fun a b => inferInstanceAs (Decidable (ratioKey a ≤ ratioKey b))

instance : IsTotal (ℚ × ℚ) ratioLe :=
  ⟨fun a b => le_total (ratioKey a) (ratioKey b)⟩

instance : IsTrans (ℚ × ℚ) ratioLe :=
  ⟨fun _ _ _ h h2 => le_trans h h2⟩

/-- Group-grade computation of `calculate_final_grade` (lines 57 to 66 of
`app/services/grading.py`): sort by ratio and drop the lowest when
`drop_lowest > 0`, then divide total earned by total possible, with 0 when
nothing is possible. -/
def groupPercentage (grades0 : List (ℚ × ℚ)) (dropLowest : Nat) : ℚ :=
  let grades := if 0 < dropLowest then (List.insertionSort ratioLe grades0).drop dropLowest
                else grades0
  let total_points := (grades.map Prod.fst).sum
  let total_possible := (grades.map Prod.snd).sum
  if 0 < total_possible then total_points / total_possible else 0

/-- Letter mapping `percentage_to_letter` of `app/services/grading.py`. -/
def percentage_to_letter (percentage : ℚ) : String :=
  if 90 ≤ percentage then "A"
  else if 80 ≤ percentage then "B"
  else if 70 ≤ percentage then "C"
  else if 60 ≤ percentage then "D"
  else "F"

/-- Persist `enrollment.grade` and `enrollment.letter_grade` onto the row
with the given primary key (the ORM mutation plus `db.session.commit()`). -/
def setGrade (enrollments : List Enrollment) (eid : Nat) (g : ℚ) (lg : String) :
    List Enrollment :=
  enrollments.map (fun e => if e.id == eid then { e with grade := some g, letterGrade := some lg } else e)

/-- No-groups query of `calculate_final_grade`: the graded submissions of the user
joined to assignments of the offering, as (grade, points_possible) pairs. -/
def gradedPairsNoGroups (s : State) (uid oid : Nat) : List (ℚ × ℚ) :=
  s.submissions.filterMap (fun sub =>
    match sub.grade, findAssignment s sub.assignmentId with
    | some g, some a =>
      if a.offeringId == oid && sub.userId == uid then some (g, a.pointsPossible) else none
    | _, _ => none)

/-- Per-group query of `calculate_final_grade`: the graded submissions of the user
whose assignment belongs to the group, as (grade, points_possible) pairs, in
stored submission order. The `points_possible` comes from the
`submission.assignment` relationship (a primary-key lookup). -/
def groupPairs (s : State) (uid gid : Nat) : List (ℚ × ℚ) :=
  let assignments := s.assignments.filter (fun a => a.groupId == some gid)
  s.submissions.filterMap (fun sub =>
    if assignments.any (fun a => a.id == sub.assignmentId) && sub.userId == uid then
      match sub.grade, findAssignment s sub.assignmentId with
      | some g, some a => some (g, a.pointsPossible)
      | _, _ => none
    else none)

/-- Loop of `calculate_final_grade` over the assignment groups of the offering,
accumulating `(weighted_sum, total_weight)`; a group with no graded
submissions is skipped entirely. -/
def groupContributions (s : State) (uid : Nat) (groups : List AssignmentGroup) : ℚ × ℚ :=
  groups.foldl
    (fun acc g =>
      let pairs := groupPairs s uid g.id
      if pairs.isEmpty then acc
      else (acc.1 + groupPercentage pairs g.dropLowest * g.weight, acc.2 + g.weight))
    (0, 0)

/-- Embedding of `calculate_final_grade(enrollment_id)` from
`app/services/grading.py`. Returns the percentage (or `none` when the
enrollment id matches no row) together with the updated store. The
`course_offering` relationship is a non-nullable foreign key; a missing
offering row would raise before any write and is modelled as `none` with
the state unchanged. -/
def calculate_final_grade (s : State) (eid : Nat) : Option ℚ × State :=
  match s.enrollments.find? (fun e => e.id == eid) with
  | none => (none, s)
  | some enrollment =>
    match findOffering s enrollment.offeringId with
    | none => (none, s)
    | some offering =>
      let groups := s.groups.filter (fun g => g.offeringId == offering.id)
      if groups.isEmpty then
        let subs := gradedPairsNoGroups s enrollment.userId offering.id
        if subs.isEmpty then
          (some 0, { s with enrollments := setGrade s.enrollments eid 0 "F" })
        else
          let total := (subs.map Prod.fst).sum
          let possible := (subs.map Prod.snd).sum
          let percentage := if 0 < possible then total / possible * 100 else 0
          (some percentage,
           { s with enrollments := setGrade s.enrollments eid percentage (percentage_to_letter percentage) })
      else
        let ws := groupContributions s enrollment.userId groups
        let final_percentage := if 0 < ws.2 then ws.1 / ws.2 * 100 else 0
        (some final_percentage,
         { s with enrollments := setGrade s.enrollments eid final_percentage (percentage_to_letter final_percentage) })

/-- Percentage of a bag of (earned, possible) pairs: total earned over total
possible, 0 when nothing is possible. Evaluating it on a sub-multiset of a
graded pairs of a group gives the group percentage that would result from
keeping exactly those pairs. -/
def multisetPct (t : Multiset (ℚ × ℚ)) : ℚ :=
  if 0 < (t.map Prod.snd).sum then (t.map Prod.fst).sum / (t.map Prod.snd).sum else 0

/-- Scoring model of `app/services/predictive.py`: either the `DummyModel`
fallback, or a trained model abstracted as the per-row positive-class
probability function delivered by `predict_proba(X)[:, 1]`. -/
inductive RiskModel where
  | dummy : RiskModel
  | trained (predict : ℚ × ℚ × ℚ → ℚ) : RiskModel

/-- Positive-class column `model.predict_proba(X)[:, 1]`. On an empty
feature matrix both `np.array([])` and the `DummyModel` result
`np.array([[0.9, 0.1]] * 0)` are one-dimensional empty arrays, so the
two-index slice `[:, 1]` raises IndexError: that failure is modelled as
`none`. On a nonempty matrix the `DummyModel` rows `[0.9, 0.1]` contribute
the constant 0.1 each. -/
def predictCol1 (m : RiskModel) (X : List (ℚ × ℚ × ℚ)) : Option (List ℚ) :=
  if X.isEmpty then none
  else
    match m with
    | .dummy => some (X.map (fun _ => 1 / 10))
    | .trained f => some (X.map f)

/-- Environment of `load_model`: the cache slot `risk_model`, whether the
model file at `MODEL_PATH` exists, and the model it would deserialize to. -/
structure ModelEnv where
  cachedModel : Option RiskModel
  modelFileExists : Bool
  fileModel : RiskModel

/-- Embedding of `load_model` from `app/services/predictive.py`: use the
cached model when present, otherwise read the file, falling back to
`DummyModel` when the file is absent. The `cache.set` performed after a
successful file read does not affect the value returned and is elided. -/
def load_model (env : ModelEnv) : RiskModel :=
  match env.cachedModel with
  | some m => m
  | none => if env.modelFileExists then env.fileModel else RiskModel.dummy

/-- Input record of `at_risk_prediction`: a dict with keys `student_id`,
`avg_grade`, `submission_rate`, `attendance`. -/
structure StudentFeatures where
  studentId : Nat
  avgGrade : ℚ
  submissionRate : ℚ
  attendance : ℚ
deriving DecidableEq

/-- Embedding of `at_risk_prediction(student_features)` from
`app/services/predictive.py`: build the feature matrix, take the
positive-class probabilities, and pair each student id with its probability
in input order. The column indexing raises IndexError on an empty feature
list (see `predictCol1`), so the call is fallible and returns `none` there. -/
def at_risk_prediction (env : ModelEnv) (student_features : List StudentFeatures) :
    Option (List (Nat × ℚ)) :=
  let model := load_model env
  let X := student_features.map (fun st => (st.avgGrade, st.submissionRate, st.attendance))
  (predictCol1 model X).map (fun probabilities =>
    (student_features.zip probabilities).map (fun sp => (sp.1.studentId, sp.2)))

/-- Store with one full offering (capacity 0) and user 7 already on its
waitlist: the input on which the duplicate-waitlist behaviour is decided. -/
def c1State : State where
  courses := [⟨1, []⟩]
  offerings := [⟨1, 1, 0⟩]
  enrollments := []
  waitlists := [⟨7, 1⟩]
  groups := []
  assignments := []
  submissions := []
  nextEnrollmentId := 1

/-- List of graded pairs on which the greedy drop-lowest choice is not
optimal: ratios are 1, 0 and 0.45, so the code drops (0, 1), while dropping
(45, 100) keeps a higher percentage. -/
def c2DropList : List (ℚ × ℚ) := [(100, 100), (0, 1), (45, 100)]

/-- Alternative kept pairs for `c2DropList`: remove (45, 100) instead. -/
def c2KeptSet : Multiset (ℚ × ℚ) := (↑([(100, 100), (0, 1)] : List (ℚ × ℚ)) : Multiset (ℚ × ℚ))

/-- Witness input for the amended drop-lowest claim: two pairs out of 1
point each, drop one. -/
def c2WitList : List (ℚ × ℚ) := [(1, 1), (0, 1)]

/-- Witness kept pair for the amended drop-lowest claim. -/
def c2WitSet : Multiset (ℚ × ℚ) := (↑([(1, 1)] : List (ℚ × ℚ)) : Multiset (ℚ × ℚ))

/-- Store for the capacity-invariant witness: one offering with one free
seat and no prerequisites. -/
def c3State : State where
  courses := [⟨1, []⟩]
  offerings := [⟨1, 1, 1⟩]
  enrollments := []
  waitlists := []
  groups := []
  assignments := []
  submissions := []
  nextEnrollmentId := 1

/-- Store of the worked grading example of the spec: group "quizzes"
(weight 40, drop lowest 1) with pairs (8,10), (9,10), (3,10) and group
"exams" (weight 60) with pairs (45,50), (40,50), for enrollment 1 of
user 5. -/
def c4State : State where
  courses := [⟨1, []⟩]
  offerings := [⟨1, 1, 30⟩]
  enrollments := [⟨1, 5, 1, "enrolled", none, none⟩]
  waitlists := []
  groups := [⟨1, 1, 40, 1⟩, ⟨2, 1, 60, 0⟩]
  assignments := [⟨1, 1, some 1, 10⟩, ⟨2, 1, some 1, 10⟩, ⟨3, 1, some 1, 10⟩,
                  ⟨4, 1, some 2, 50⟩, ⟨5, 1, some 2, 50⟩]
  submissions := [⟨1, 5, some 8⟩, ⟨2, 5, some 9⟩, ⟨3, 5, some 3⟩,
                  ⟨4, 5, some 45⟩, ⟨5, 5, some 40⟩]
  nextEnrollmentId := 2

/-- Store for the waitlist-before-prerequisites witness: offering 1 is full
(capacity 0) and its course requires course 2, which user 7 has not
completed. -/
def c5State : State where
  courses := [⟨1, [2]⟩, ⟨2, []⟩]
  offerings := [⟨1, 1, 0⟩]
  enrollments := []
  waitlists := []
  groups := []
  assignments := []
  submissions := []
  nextEnrollmentId := 1

/-- Store for the duplicate-enrollment witness: user 7 already holds a
completed enrollment in offering 1. -/
def c6State : State where
  courses := [⟨1, []⟩]
  offerings := [⟨1, 1, 5⟩]
  enrollments := [⟨1, 7, 1, "completed", none, none⟩]
  waitlists := []
  groups := []
  assignments := []
  submissions := []
  nextEnrollmentId := 2

/-- Store for the unmet-prerequisite witness: offering 1 has free seats but
its course requires course 2, which user 7 has not completed. -/
def c7State : State where
  courses := [⟨1, [2]⟩, ⟨2, []⟩]
  offerings := [⟨1, 1, 5⟩]
  enrollments := []
  waitlists := []
  groups := []
  assignments := []
  submissions := []
  nextEnrollmentId := 1

/-- Store with one assignment group (weight 1, drop lowest 1) whose three
graded pairs (1,2), (2,4), (9,10) contain a ratio tie at the drop cut. -/
def c8StateA : State where
  courses := [⟨1, []⟩]
  offerings := [⟨1, 1, 30⟩]
  enrollments := [⟨1, 5, 1, "enrolled", none, none⟩]
  waitlists := []
  groups := [⟨1, 1, 1, 1⟩]
  assignments := [⟨1, 1, some 1, 2⟩, ⟨2, 1, some 1, 4⟩, ⟨3, 1, some 1, 10⟩]
  submissions := [⟨1, 5, some 1⟩, ⟨2, 5, some 2⟩, ⟨3, 5, some 9⟩]
  nextEnrollmentId := 2

/-- The same store with the first two submission rows returned in the other
order, as an unordered SQL query may do. -/
def c8StateB : State :=
  { c8StateA with submissions := [⟨2, 5, some 2⟩, ⟨1, 5, some 1⟩, ⟨3, 5, some 9⟩] }

/-- Environment with no cached model and no model file on disk. -/
def c9Env : ModelEnv := ⟨none, false, RiskModel.dummy⟩

/-- Risk-scorer example input of the spec: avg_grade 95, submission_rate 1,
attendance 1. -/
def c9Feats : List StudentFeatures := [⟨1, 95, 1, 1⟩]

/-- Store with no enrollment rows at all, so any enrollment id is missing. -/
def c10State : State where
  courses := []
  offerings := [⟨1, 1, 30⟩]
  enrollments := []
  waitlists := []
  groups := []
  assignments := []
  submissions := []
  nextEnrollmentId := 1

/-- Helper: zipping a list with a constant-mapped copy of itself and pairing
projections is a plain map. -/
theorem zip_const_map {α β : Type} (l : List α) (f : α → β) (c : ℚ) :
    (l.zip (l.map (fun _ => c))).map (fun sp => (f sp.1, sp.2)) = l.map (fun a => (f a, c)) := by
  induction l with
  | nil => rfl
  | cons a t ih => simpa using ih

/-- Helper: appending one enrollment row changes the enrolled count of an
offering by exactly its filter indicator. -/
theorem enrolledCount_append_one (l : List Enrollment) (e : Enrollment) (x : Nat) :
    enrolledCount (l ++ [e]) x =
      enrolledCount l x + (if e.offeringId == x && e.status == "enrolled" then 1 else 0) := by
  simp only [enrolledCount, List.filter_append]
  rw [List.length_append]
  congr 1
  by_cases h : (e.offeringId == x && e.status == "enrolled") = true
  · simp [List.filter, h]
  · simp [List.filter, h]

/-- Helper: a sub-multiset avoiding the head of a cons is a sub-multiset of
the tail. -/
theorem multiset_le_of_le_cons {u v : Multiset ℚ} {a : ℚ} (h : u ≤ a ::ₘ v) (ha : a ∉ u) :
    u ≤ v := by
  rw [Multiset.le_iff_count] at h ⊢
  intro b
  rcases eq_or_ne b a with hb | hb
  · subst hb
    simp [Multiset.count_eq_zero_of_not_mem ha]
  · have hcount := h b
    rwa [Multiset.count_cons_of_ne hb] at hcount

/-- Helper: the first `d` entries of an ascending list have the least sum
among all size-`d` sub-multisets of it. -/
theorem take_sorted_sum_le :
    ∀ (d : Nat) (w : List ℚ), w.Sorted (· ≤ ·) →
      ∀ u : Multiset ℚ, u ≤ ↑w → Multiset.card u = d → (w.take d).sum ≤ u.sum := by
  intro d
  induction d with
  | zero =>
    intro w hw u hu hcard
    have hu0 : u = 0 := Multiset.card_eq_zero.mp hcard
    subst hu0
    simp
  | succ d ih =>
    intro w hw u hu hcard
    have hne : u ≠ 0 := by
      intro h0
      rw [h0] at hcard
      simp at hcard
    obtain ⟨x, hx⟩ := Multiset.exists_mem_of_ne_zero hne
    have hxw : x ∈ w := by
      have hmem := Multiset.mem_of_le hu hx
      simpa using hmem
    cases w with
    | nil => cases hxw
    | cons a w2 =>
      have ha : ∀ b ∈ w2, a ≤ b := List.rel_of_sorted_cons hw
      have hw2 : w2.Sorted (· ≤ ·) := hw.of_cons
      by_cases hau : a ∈ u
      · have h1 : u.erase a ≤ ↑w2 := by
          have h2 := Multiset.erase_le_erase a hu
          rwa [show ((a :: w2 : List ℚ) : Multiset ℚ) = a ::ₘ ↑w2 from rfl,
            Multiset.erase_cons_head] at h2
        have hc : Multiset.card (u.erase a) = d := by
          rw [Multiset.card_erase_of_mem hau, hcard]
          rfl
        have IH := ih w2 hw2 (u.erase a) h1 hc
        have hsum : u.sum = a + (u.erase a).sum := by
          conv_lhs => rw [← Multiset.cons_erase hau]
          rw [Multiset.sum_cons]
        rw [List.take_succ_cons, List.sum_cons, hsum]
        exact add_le_add_left IH a
      · have hu2 : u ≤ ↑w2 := multiset_le_of_le_cons (by simpa using hu) hau
        have hxw2 : x ∈ (↑w2 : Multiset ℚ) := Multiset.mem_of_le hu2 hx
        have hax : a ≤ x := ha x (by simpa using hxw2)
        have h1 : u.erase x ≤ ↑w2 := le_trans (Multiset.erase_le x u) hu2
        have hc : Multiset.card (u.erase x) = d := by
          rw [Multiset.card_erase_of_mem hx, hcard]
          rfl
        have IH := ih w2 hw2 (u.erase x) h1 hc
        have hsum : u.sum = x + (u.erase x).sum := by
          conv_lhs => rw [← Multiset.cons_erase hx]
          rw [Multiset.sum_cons]
        rw [List.take_succ_cons, List.sum_cons, hsum]
        exact add_le_add hax IH

/-- C1: the claim says that when the user already has a Waitlist entry for a
full offering, `enroll_student` returns Conflict and creates no second
entry. The code never checks for an existing Waitlist entry: on the store
`c1State`, where user 7 is already waitlisted for the full offering 1, it
returns the Waitlisted outcome and stores a second Waitlist row for (7, 1),
contradicting the unique_waitlist constraint declared on the model (in
production the unguarded commit raises an IntegrityError rather than a clean
Conflict). -/
theorem c1_duplicate_waitlist_second_entry :
    (enroll_student c1State 7 1).1 = EnrollOutcome.waitlisted ∧
    waitlistCount (enroll_student c1State 7 1).2.waitlists 7 1 = 2 := by decide

/-- C2 (counterexample): dropping the single lowest-ratio pair of
`c2DropList` is not optimal. The kept set `c2KeptSet` is a legitimate
alternative of the same remaining size, yet its percentage 100/101 beats the
29/40 kept by the greedy drop of the code. -/
theorem c2_drop_lowest_not_optimal :
    c2KeptSet ≤ (↑c2DropList : Multiset (ℚ × ℚ)) ∧
    Multiset.card c2KeptSet + 1 = c2DropList.length ∧
    groupPercentage c2DropList 1 < multisetPct c2KeptSet := by
  refine ⟨by decide, by decide, ?_⟩
  have h1 : groupPercentage c2DropList 1 = 29 / 40 := by
    norm_num [groupPercentage, c2DropList, List.insertionSort, List.orderedInsert,
      ratioLe, ratioKey]
  have h2 : multisetPct c2KeptSet = 100 / 101 := by
    norm_num [multisetPct, c2KeptSet, Multiset.map_coe, Multiset.sum_coe]
  rw [h1, h2]
  norm_num

/-- C2 (amended): when every graded pair of the group shares one positive
points-possible value `p`, the group percentage after the drop-lowest sort
and drop of `d` pairs is at least the percentage of any sub-multiset of the
pairs of the same remaining size. -/
theorem c2_drop_lowest_optimal_equal_points (l : List (ℚ × ℚ)) (p : ℚ) (hp : 0 < p)
    (hall : ∀ g ∈ l, g.2 = p) (d : Nat) (t : Multiset (ℚ × ℚ))
    (ht : t ≤ ↑l) (hcard : Multiset.card t + d = l.length) :
    multisetPct t ≤ groupPercentage l d := by
  rcases Nat.eq_zero_or_pos d with hd | hd
  · subst hd
    have hteq : t = ↑l := by
      apply Multiset.eq_of_le_of_card_le ht
      rw [Multiset.coe_card]
      omega
    subst hteq
    rw [groupPercentage, multisetPct]
    simp only [Nat.lt_irrefl, if_false, Multiset.map_coe, Multiset.sum_coe]
    exact le_rfl
  · have hperm : List.Perm (List.insertionSort ratioLe l) l := List.perm_insertionSort ratioLe l
    set L := List.insertionSort ratioLe l with hLdef
    have hsortedKey : L.Sorted ratioLe := List.sorted_insertionSort ratioLe l
    have hallL : ∀ g ∈ L, g.2 = p := fun g hg => hall g (hperm.mem_iff.mp hg)
    have hlen : L.length = l.length := hperm.length_eq
    have hpairwise : L.Pairwise (fun a b => a.1 ≤ b.1) := by
      refine List.Pairwise.imp_of_mem ?_ hsortedKey
      intro a b hma hmb hr
      have hr2 : ratioKey a ≤ ratioKey b := hr
      rw [ratioKey, ratioKey, hallL a hma, hallL b hmb, if_pos hp, if_pos hp] at hr2
      exact (div_le_div_iff_of_pos_right hp).mp hr2
    have hwsorted : (L.map Prod.fst).Sorted (· ≤ ·) := List.pairwise_map.mpr hpairwise
    rcases Nat.eq_zero_or_pos (l.length - d) with hk | hk
    · have ht0 : t = 0 := Multiset.card_eq_zero.mp (by omega)
      subst ht0
      have hR : L.drop d = [] := List.drop_eq_nil_of_le (by omega)
      rw [groupPercentage]
      simp only [hd, if_pos, ← hLdef, hR, multisetPct]
      simp
    · have hRlen : (L.drop d).length = l.length - d := by
        rw [List.length_drop, hlen]
      have hRsnd : (L.drop d).map Prod.snd = List.replicate (l.length - d) p := by
        apply List.eq_replicate_iff.mpr
        refine ⟨by rw [List.length_map, hRlen], ?_⟩
        intro b hb
        obtain ⟨g, hg, rfl⟩ := List.mem_map.mp hb
        exact hallL g (List.mem_of_mem_drop hg)
      have hsumsndR : ((L.drop d).map Prod.snd).sum = ((l.length - d : Nat) : ℚ) * p := by
        rw [hRsnd, List.sum_replicate, nsmul_eq_mul]
      have htsnd : t.map Prod.snd = Multiset.replicate (l.length - d) p := by
        apply Multiset.eq_replicate.mpr
        refine ⟨by rw [Multiset.card_map]; omega, ?_⟩
        intro b hb
        obtain ⟨g, hg, rfl⟩ := Multiset.mem_map.mp hb
        exact hall g (by simpa using Multiset.mem_of_le ht hg)
      have hsumsndt : (t.map Prod.snd).sum = ((l.length - d : Nat) : ℚ) * p := by
        rw [htsnd, Multiset.sum_replicate, nsmul_eq_mul]
      have hpos : 0 < ((l.length - d : Nat) : ℚ) * p := by
        apply mul_pos _ hp
        exact_mod_cast hk
      have htf_le : t.map Prod.fst ≤ (↑(l.map Prod.fst) : Multiset ℚ) := by
        have hmap := Multiset.map_le_map (f := Prod.fst) ht
        rwa [Multiset.map_coe] at hmap
      have hcoeL : (↑(L.map Prod.fst) : Multiset ℚ) = ↑(l.map Prod.fst) :=
        Multiset.coe_eq_coe.mpr (hperm.map Prod.fst)
      have hsub_le : (↑(l.map Prod.fst) : Multiset ℚ) - t.map Prod.fst ≤ ↑(L.map Prod.fst) := by
        rw [hcoeL]
        exact tsub_le_self
      have hsub_card :
          Multiset.card ((↑(l.map Prod.fst) : Multiset ℚ) - t.map Prod.fst) = d := by
        rw [Multiset.card_sub htf_le, Multiset.coe_card, List.length_map, Multiset.card_map]
        omega
      have htake := take_sorted_sum_le d (L.map Prod.fst) hwsorted
        ((↑(l.map Prod.fst) : Multiset ℚ) - t.map Prod.fst) hsub_le hsub_card
      have hsub_sum :
          ((↑(l.map Prod.fst) : Multiset ℚ) - t.map Prod.fst).sum =
            (l.map Prod.fst).sum - (t.map Prod.fst).sum := by
        have hadd := congrArg Multiset.sum (tsub_add_cancel_of_le htf_le)
        rw [Multiset.sum_add, Multiset.sum_coe] at hadd
        linarith
      have hsplit : ((L.map Prod.fst).take d).sum + ((L.map Prod.fst).drop d).sum =
          (L.map Prod.fst).sum := by
        rw [← List.sum_append, List.take_append_drop]
      have hLsum : (L.map Prod.fst).sum = (l.map Prod.fst).sum := (hperm.map Prod.fst).sum_eq
      have hdropmap : ((L.drop d).map Prod.fst) = (L.map Prod.fst).drop d :=
        List.map_drop Prod.fst L d
      have hnum : (t.map Prod.fst).sum ≤ ((L.drop d).map Prod.fst).sum := by
        rw [hdropmap]
        rw [hsub_sum] at htake
        linarith
      rw [groupPercentage]
      simp only [hd, if_pos, ← hLdef]
      rw [multisetPct, if_pos (by rw [hsumsndt]; exact hpos), hsumsndt, hsumsndR,
        if_pos hpos]
      exact (div_le_div_iff_of_pos_right hpos).mpr hnum

/-- C2 (witness): on two pairs worth 1 point each with drop count 1, the
greedy drop keeps the pair (1, 1), which is at least as good as keeping the
sub-multiset holding only (1, 1). -/
theorem c2_drop_lowest_optimal_equal_points_witness :
    multisetPct c2WitSet ≤ groupPercentage c2WitList 1 :=
  c2_drop_lowest_optimal_equal_points c2WitList 1 (by decide) (by decide) 1 c2WitSet
    (by decide) (by decide)

/-- C3: starting from any store whose offerings (with distinct primary keys)
all satisfy enrolled-count at most capacity, one `enroll_student` step
preserves that invariant: the enroll branch only fires below capacity and
adds exactly one enrolled row for that offering, and every other branch
leaves the enrollment table unchanged. -/
theorem c3_enroll_preserves_capacity_invariant (s : State) (uid oid : Nat)
    (hids : (s.offerings.map CourseOffering.id).Nodup)
    (hinv : capacityInvariant s) :
    capacityInvariant (enroll_student s uid oid).2 := by
  unfold enroll_student
  cases hfind : findOffering s oid with
  | none => exact hinv
  | some off =>
    have hoffmem : off ∈ s.offerings := List.mem_of_find?_eq_some hfind
    have hoffid : off.id = oid := by
      have hq := List.find?_some hfind
      simpa using hq
    by_cases hex : (s.enrollments.any (fun e => e.userId == uid && e.offeringId == oid)) = true
    · simp only [hex, if_true]
      exact hinv
    · rw [Bool.not_eq_true] at hex
      simp only [hex, Bool.false_eq_true, if_false]
      by_cases hcap : off.capacity ≤ enrolledCount s.enrollments oid
      · simp only [hcap, if_true]
        exact hinv
      · simp only [hcap, if_false]
        cases hc : findCourse s off.courseId with
        | none => exact hinv
        | some course =>
          by_cases hpre : (!course.prerequisites.isEmpty &&
              !(course.prerequisites.all (fun p => (completedCourseIds s uid).contains p))) = true
          · simp only [hpre, if_true]
            exact hinv
          · rw [Bool.not_eq_true] at hpre
            simp only [hpre, Bool.false_eq_true, if_false]
            intro o ho
            rw [enrolledCount_append_one]
            by_cases hid : oid = o.id
            · have hoeq : o = off := List.inj_on_of_nodup_map hids ho hoffmem (by omega)
              subst hoeq
              have hlt : enrolledCount s.enrollments oid < o.capacity := Nat.lt_of_not_le hcap
              simp only [show (oid == o.id) = true from by simp [hid], Bool.true_and,
                show ("enrolled" == "enrolled") = true from rfl, if_true]
              have hcnt : enrolledCount s.enrollments o.id = enrolledCount s.enrollments oid := by
                rw [hid]
              omega
            · simp only [show (oid == o.id) = false from by simp [hid], Bool.false_and,
                Bool.false_eq_true, if_false]
              have hbase := hinv o ho
              omega

/-- C3 (witness): on the store `c3State` with one free seat, enrolling user 1
keeps every offering within capacity. -/
theorem c3_enroll_preserves_capacity_invariant_witness :
    capacityInvariant (enroll_student c3State 1 1).2 :=
  c3_enroll_preserves_capacity_invariant c3State 1 1 (by decide) (by decide)

/-- C4: on the worked example of the spec (`c4State`), `calculate_final_grade`
returns percentage 85 and persists grade 85 with letter grade B onto the
enrollment row. -/
theorem c4_worked_example :
    (calculate_final_grade c4State 1).1 = some 85 ∧
    (calculate_final_grade c4State 1).2.enrollments.map (fun e => (e.grade, e.letterGrade)) =
      [(some 85, some "B")] := by
  have hg1 : groupPairs c4State 5 1 = [(8, 10), (9, 10), (3, 10)] := rfl
  have hg2 : groupPairs c4State 5 2 = [(45, 50), (40, 50)] := rfl
  have hgp1 : groupPercentage [((8:ℚ), (10:ℚ)), (9, 10), (3, 10)] 1 = 17 / 20 := by
    norm_num [groupPercentage, List.insertionSort, List.orderedInsert, ratioLe, ratioKey]
  have hgp2 : groupPercentage [((45:ℚ), (50:ℚ)), (40, 50)] 0 = 17 / 20 := by
    norm_num [groupPercentage]
  have hgc : groupContributions c4State 5 [⟨1, 1, 40, 1⟩, ⟨2, 1, 60, 0⟩] = (85, 100) := by
    rw [groupContributions]
    simp only [List.foldl_cons, List.foldl_nil, hg1, hg2, hgp1, hgp2]
    norm_num
  have hmain : calculate_final_grade c4State 1 =
      (some 85, { c4State with enrollments := [⟨1, 5, 1, "enrolled", some 85, some "B"⟩] }) := by
    simp only [calculate_final_grade,
      show c4State.enrollments.find? (fun e => e.id == 1) =
        some ⟨1, 5, 1, "enrolled", none, none⟩ from rfl,
      show findOffering c4State 1 = some ⟨1, 1, 30⟩ from rfl]
    simp only [show c4State.groups.filter (fun g => g.offeringId == (1:Nat)) =
        [⟨1, 1, 40, 1⟩, ⟨2, 1, 60, 0⟩] from rfl, hgc]
    norm_num [setGrade, percentage_to_letter,
      show c4State.enrollments = [⟨1, 5, 1, "enrolled", none, none⟩] from rfl]
  rw [hmain]
  exact ⟨rfl, rfl⟩

/-- C5: when no Enrollment row exists for the pair and the offering is at or
above capacity, `enroll_student` returns the Waitlisted outcome and appends
a Waitlist entry, even under the explicit hypotheses that the course of the
offering has an unmet prerequisite: the capacity branch runs before any
prerequisite check. -/
theorem c5_full_offering_waitlists_ignoring_prereqs (s : State) (uid oid : Nat)
    (off : CourseOffering) (course : Course)
    (hoff : findOffering s oid = some off)
    (hnew : (s.enrollments.any (fun e => e.userId == uid && e.offeringId == oid)) = false)
    (hcap : off.capacity ≤ enrolledCount s.enrollments oid)
    (hcourse : findCourse s off.courseId = some course)
    (hunmet : course.prerequisites.all (fun p => (completedCourseIds s uid).contains p) = false) :
    enroll_student s uid oid =
      (.waitlisted, { s with waitlists := s.waitlists ++ [⟨uid, oid⟩] }) := by
  unfold enroll_student
  rw [hoff]
  simp [hnew, hcap]

/-- C5 (witness): user 7 fails the prerequisite of the full offering 1 of
`c5State` and is still waitlisted. -/
theorem c5_full_offering_waitlists_ignoring_prereqs_witness :
    enroll_student c5State 7 1 =
      (.waitlisted, { c5State with waitlists := c5State.waitlists ++ [⟨7, 1⟩] }) :=
  c5_full_offering_waitlists_ignoring_prereqs c5State 7 1 ⟨1, 1, 0⟩ ⟨1, [2]⟩
    (by decide) (by decide) (by decide) (by decide) (by decide)

/-- C6: when an Enrollment row already exists for the pair, with any status
whatsoever, `enroll_student` returns the Conflict outcome and leaves the
whole store unchanged, so no second Enrollment row and no Waitlist row is
ever created. -/
theorem c6_duplicate_enrollment_conflict (s : State) (uid oid : Nat)
    (off : CourseOffering) (e : Enrollment)
    (hoff : findOffering s oid = some off)
    (he : e ∈ s.enrollments) (heu : e.userId = uid) (heo : e.offeringId = oid) :
    enroll_student s uid oid = (.alreadyEnrolled, s) := by
  unfold enroll_student
  rw [hoff]
  have hany : (s.enrollments.any (fun x => x.userId == uid && x.offeringId == oid)) = true :=
    List.any_eq_true.mpr ⟨e, he, by simp [heu, heo]⟩
  simp [hany]

/-- C6 (witness): user 7 holds a completed enrollment in offering 1 of
`c6State`; re-requesting enrollment returns Conflict and changes nothing. -/
theorem c6_duplicate_enrollment_conflict_witness :
    enroll_student c6State 7 1 = (.alreadyEnrolled, c6State) :=
  c6_duplicate_enrollment_conflict c6State 7 1 ⟨1, 1, 5⟩ ⟨1, 7, 1, "completed", none, none⟩
    (by decide) (by decide) rfl rfl

/-- C7: when no Enrollment row exists for the pair, a seat is free, and some
prerequisite `p` of the course is not among the completed courses of the
user, `enroll_student` returns the PrerequisiteNotMet rejection with the
store unchanged: no Enrollment row, no Waitlist row, no count changes. -/
theorem c7_unmet_prereq_rejected_no_change (s : State) (uid oid : Nat)
    (off : CourseOffering) (course : Course) (p : Nat)
    (hoff : findOffering s oid = some off)
    (hnew : (s.enrollments.any (fun e => e.userId == uid && e.offeringId == oid)) = false)
    (hcap : enrolledCount s.enrollments oid < off.capacity)
    (hcourse : findCourse s off.courseId = some course)
    (hp : p ∈ course.prerequisites)
    (hnot : p ∉ completedCourseIds s uid) :
    enroll_student s uid oid = (.prereqNotMet, s) := by
  unfold enroll_student
  rw [hoff]
  simp [hnew, Nat.not_le.mpr hcap, hcourse]
  exact ⟨List.ne_nil_of_mem hp, p, hp, hnot⟩

/-- C7 (witness): user 7 misses prerequisite course 2 for offering 1 of
`c7State`, which has free seats; the request is rejected and the store is
unchanged. -/
theorem c7_unmet_prereq_rejected_no_change_witness :
    enroll_student c7State 7 1 = (.prereqNotMet, c7State) :=
  c7_unmet_prereq_rejected_no_change c7State 7 1 ⟨1, 1, 5⟩ ⟨1, [2]⟩ 2
    (by decide) (by decide) (by decide) (by decide) (by decide) (by decide)

/-- C8: the claim says `calculate_final_grade` has no ordering dependence and
resolves drop-lowest ties deterministically. The stores `c8StateA` and
`c8StateB` hold the same submission rows (a permutation, all other tables
equal), yet the computed percentages differ (550/7 versus 250/3, letters C
versus B): the sort key is the bare ratio, so the tie between (1,2) and
(2,4) at the drop cut is resolved by the unspecified order in which the
query returns the rows. -/
theorem c8_submission_order_changes_grade :
    c8StateA.submissions.Perm c8StateB.submissions ∧
    c8StateA.enrollments = c8StateB.enrollments ∧
    c8StateA.assignments = c8StateB.assignments ∧
    c8StateA.groups = c8StateB.groups ∧
    (calculate_final_grade c8StateA 1).1 ≠ (calculate_final_grade c8StateB 1).1 := by
  have hgA : groupPairs c8StateA 5 1 = [(1, 2), (2, 4), (9, 10)] := rfl
  have hgB : groupPairs c8StateB 5 1 = [(2, 4), (1, 2), (9, 10)] := rfl
  have hgpA : groupPercentage [((1:ℚ), (2:ℚ)), (2, 4), (9, 10)] 1 = 11 / 14 := by
    norm_num [groupPercentage, List.insertionSort, List.orderedInsert, ratioLe, ratioKey]
  have hgpB : groupPercentage [((2:ℚ), (4:ℚ)), (1, 2), (9, 10)] 1 = 5 / 6 := by
    norm_num [groupPercentage, List.insertionSort, List.orderedInsert, ratioLe, ratioKey]
  have hgcA : groupContributions c8StateA 5 [⟨1, 1, 1, 1⟩] = (11 / 14, 1) := by
    rw [groupContributions]
    simp only [List.foldl_cons, List.foldl_nil, hgA, hgpA]
    norm_num
  have hgcB : groupContributions c8StateB 5 [⟨1, 1, 1, 1⟩] = (5 / 6, 1) := by
    rw [groupContributions]
    simp only [List.foldl_cons, List.foldl_nil, hgB, hgpB]
    norm_num
  have hA : (calculate_final_grade c8StateA 1).1 = some (550 / 7) := by
    simp only [calculate_final_grade,
      show c8StateA.enrollments.find? (fun e => e.id == 1) =
        some ⟨1, 5, 1, "enrolled", none, none⟩ from rfl,
      show findOffering c8StateA 1 = some ⟨1, 1, 30⟩ from rfl]
    simp only [show c8StateA.groups.filter (fun g => g.offeringId == (1:Nat)) =
        [⟨1, 1, 1, 1⟩] from rfl, hgcA]
    norm_num
  have hB : (calculate_final_grade c8StateB 1).1 = some (250 / 3) := by
    simp only [calculate_final_grade,
      show c8StateB.enrollments.find? (fun e => e.id == 1) =
        some ⟨1, 5, 1, "enrolled", none, none⟩ from rfl,
      show findOffering c8StateB 1 = some ⟨1, 1, 30⟩ from rfl]
    simp only [show c8StateB.groups.filter (fun g => g.offeringId == (1:Nat)) =
        [⟨1, 1, 1, 1⟩] from rfl, hgcB]
    norm_num
  refine ⟨by decide, rfl, rfl, rfl, ?_⟩
  rw [hA, hB]
  norm_num

/-- C9 (counterexample): the claim quantifies over every input list, but on
the empty student list the call fails instead of returning the empty result
list: with no cached model and no model file, `np.array([])` is
one-dimensional, the `DummyModel` output `np.array([[0.9, 0.1]] * 0)` is
one-dimensional too, and the slice `[:, 1]` raises IndexError, modelled as
`none` rather than `some []`. -/
theorem c9_fallback_empty_input_fails :
    at_risk_prediction c9Env [] = none ∧ at_risk_prediction c9Env [] ≠ some [] := by
  exact ⟨rfl, by decide⟩

/-- C9 (amended): with no cached model and no model file, `at_risk_prediction`
falls back to the dummy model and, for every nonempty list of student
feature records, succeeds with exactly one result per student in input
order, each carrying the constant risk score 0.1; on the empty list the
numpy column indexing raises, so that input is excluded. -/
theorem c9_fallback_constant_risk (env : ModelEnv) (feats : List StudentFeatures)
    (hcache : env.cachedModel = none) (hfile : env.modelFileExists = false)
    (hne : feats ≠ []) :
    at_risk_prediction env feats = some (feats.map (fun st => (st.studentId, 1 / 10))) := by
  unfold at_risk_prediction load_model
  rw [hcache, hfile]
  have hXne : (feats.map (fun st => (st.avgGrade, st.submissionRate, st.attendance))).isEmpty
      = false := by
    cases feats with
    | nil => cases hne rfl
    | cons a t => rfl
  simp only [Bool.false_eq_true, if_false, predictCol1, hXne, List.map_map, Option.map_some]
  exact congrArg some (zip_const_map feats StudentFeatures.studentId (1 / 10))

/-- C9 (witness): the spec example student with avg_grade 95 receives risk
score 0.1 from the fallback. -/
theorem c9_fallback_constant_risk_witness :
    at_risk_prediction c9Env c9Feats = some [(1, 1 / 10)] :=
  c9_fallback_constant_risk c9Env c9Feats rfl rfl (by decide)

/-- C10: when the enrollment id matches no row, `calculate_final_grade`
returns none, not a numeric percentage, and the store is unchanged: no grade
or letter grade is written anywhere. -/
theorem c10_missing_enrollment_returns_none (s : State) (eid : Nat)
    (h : s.enrollments.find? (fun e => e.id == eid) = none) :
    calculate_final_grade s eid = (none, s) := by
  unfold calculate_final_grade
  rw [h]

/-- C10 (witness): on `c10State`, which has no enrollment rows, id 1 yields
none with the store untouched. -/
theorem c10_missing_enrollment_returns_none_witness :
    calculate_final_grade c10State 1 = (none, c10State) :=
  c10_missing_enrollment_returns_none c10State 1 (by decide)
